import Mathlib

/-!
Verification of the syft-priority-sync core against its source.

The development shallowly embeds the repository's Python modules:

* `src/syft_priority_sync/models.py` — the data model (`SyncPriority`,
  `SyncOperation`, `SyncPriorityRule`, `SyncPriorityConfig`, `SyncRequest`,
  `SyncResponse`).  Timestamps (`created`, `updated`, `timestamp`) are
  carried by no claim and are omitted from the embedding.
* `src/syft_priority_sync/api.py` — the rule store.  The sidecar file next
  to a governed path is modelled by `SidecarState`: the file may be absent,
  present but unparsable (`corrupt` — `yaml.safe_load`/pydantic validation
  raising, which `load_sync_priority` swallows), or parsable into a config.
* `src/syft_priority_sync/watcher.py` — the change detector and dispatcher.
  The content digest function (`hashlib.sha256(...).hexdigest()`) is an
  explicit parameter; file reads are passed in as `Option` (with `none`
  standing for `open`/`read` raising).
* `src/syft_priority_sync/server.py` and `client.py` — the sync receiver.
  The local tree is a finite map from component paths to nodes, and each
  filesystem primitive that can raise in Python carries a fault flag in
  `FsFaults`; the external permission backend is a `PermBackend` whose
  `Except.error` result stands for any exception raised during permission
  evaluation (an unimportable or unavailable backend included).
-/

/-! ## Data model (`models.py`) -/

/-- `SyncPriority` from `models.py`: priority levels for synchronization. -/
inductive SyncPriority where
  | instant
  | normal
deriving DecidableEq, Repr

/-- `SyncOperation` from `models.py`: the kinds of file operation synced. -/
inductive SyncOperation where
  | create
  | update
  | delete
  | move
deriving DecidableEq, Repr

/-- `SyncPriorityRule` from `models.py`: users, priority, operations.
(Pydantic enforces `min_length=1` on `users` at construction time; the
embedding states that invariant as a hypothesis where a claim needs it.) -/
structure SyncPriorityRule where
  users : List String
  priority : SyncPriority
  operations : List SyncOperation
deriving DecidableEq, Repr

/-- The default operation list used by `set_sync_priority` when the
`operations` argument is `None` (api.py line 42). -/
def default_operations : List SyncOperation :=
  [SyncOperation.create, SyncOperation.update, SyncOperation.delete, SyncOperation.move]

/-- `SyncPriorityConfig` from `models.py`, restricted to its `rules` field
(the `created`/`updated` timestamps play no part in any claim). -/
structure SyncPriorityConfig where
  rules : List SyncPriorityRule
deriving DecidableEq, Repr

/-! ## Rule store state (`api.py`)

The sidecar descriptor `<name>.syncpriority.yaml` next to a governed path is
either absent, present but unparsable, or parsable into a config. -/

/-- State of the sidecar descriptor next to one governed path. -/
inductive SidecarState where
  | absent
  | corrupt
  | valid (config : SyncPriorityConfig)
deriving DecidableEq, Repr

/-- `load_sync_priority` from `api.py` (lines 158-171): returns `None` when
the sidecar file is missing, and swallows any parse failure into `None`. -/
def load_sync_priority : SidecarState → Option SyncPriorityConfig
  | .absent => none
  | .corrupt => none
  | .valid config => some config

/-- The rule-scanning loop of `get_sync_priority` (api.py lines 83-87):
return the priority of the first rule whose users contain the queried user
or the wildcard, else `NORMAL`. -/
def first_match_priority (user : String) : List SyncPriorityRule → SyncPriority
  | [] => SyncPriority.normal
  | rule :: rest =>
      if user ∈ rule.users ∨ "*" ∈ rule.users then rule.priority
      else first_match_priority user rest

/-- `get_sync_priority` from `api.py` (lines 68-87). -/
def get_sync_priority (st : SidecarState) (user : String) : SyncPriority :=
  match load_sync_priority st with
  | none => SyncPriority.normal
  | some config => first_match_priority user config.rules

/-- `first_match_priority` agrees with the `List.find?` presentation of
"first rule, in stored order, whose user list contains the user or `*`". -/
theorem first_match_priority_eq_find (user : String) (rules : List SyncPriorityRule) :
    first_match_priority user rules =
      match rules.find? (fun r => decide (user ∈ r.users ∨ "*" ∈ r.users)) with
      | none => SyncPriority.normal
      | some r => r.priority := by
  induction rules with
  | nil => rfl
  | cons r rest ih =>
      by_cases h : user ∈ r.users ∨ "*" ∈ r.users
      · simp [first_match_priority, List.find?, h]
      · simp [first_match_priority, List.find?, h, ih]

/-- C3: for every path state and user, `get_sync_priority` returns `normal`
when the sidecar is absent or unparsable, and otherwise returns the priority
of the first rule, in stored order, whose user list contains the user or the
wildcard `*`, defaulting to `normal` when no rule matches. -/
theorem get_sync_priority_spec (st : SidecarState) (user : String) :
    get_sync_priority st user =
      match load_sync_priority st with
      | none => SyncPriority.normal
      | some config =>
          match config.rules.find? (fun r => decide (user ∈ r.users ∨ "*" ∈ r.users)) with
          | none => SyncPriority.normal
          | some r => r.priority := by
  cases st with
  | absent => rfl
  | corrupt => rfl
  | valid config =>
      simp only [get_sync_priority, load_sync_priority]
      exact first_match_priority_eq_find user config.rules

/-! ## `set_sync_priority` (`api.py` lines 13-65) -/

/-- The `set(r.users) != set(users)` comparison from api.py line 57. -/
def same_users (a b : List String) : Bool :=
  decide (a.toFinset = b.toFinset)

/-- `set_sync_priority` from `api.py`: resolve the default operation list,
load the existing config (or start from an empty one), drop every rule whose
user-set equals the given one, and append the new rule.  The returned config
is the one handed to `save_sync_priority`. -/
def set_sync_priority (st : SidecarState) (users : List String)
    (priority : SyncPriority) (operations : Option (List SyncOperation)) :
    SyncPriorityConfig :=
  let ops := operations.getD default_operations
  let config := (load_sync_priority st).getD ⟨[]⟩
  let rule : SyncPriorityRule := ⟨users, priority, ops⟩
  ⟨(config.rules.filter (fun r => !(same_users r.users users))) ++ [rule]⟩

theorem filter_of_filter_not {α : Type} (p : α → Bool) (l : List α) :
    (l.filter (fun a => !(p a))).filter p = [] := by
  induction l with
  | nil => rfl
  | cons a l ih =>
      cases h : p a <;> simp [List.filter_cons, h, ih]

theorem filter_not_of_filter_not {α : Type} (p : α → Bool) (l : List α) :
    (l.filter (fun a => !(p a))).filter (fun a => !(p a)) =
      l.filter (fun a => !(p a)) := by
  induction l with
  | nil => rfl
  | cons a l ih =>
      cases h : p a <;> simp [List.filter_cons, h, ih]

theorem same_users_self (users : List String) : same_users users users = true := by
  simp [same_users]

/-- C4: `set_sync_priority` is an idempotent upsert.  After it succeeds, the
stored rule list contains exactly one rule whose user-set equals the given
one — the new rule, carrying the given priority and operations — while every
rule with a different user-set is preserved; re-setting the same user-set
leaves exactly one rule for it, holding the latest priority and operations. -/
theorem set_sync_priority_upsert (st : SidecarState) (users : List String)
    (priority : SyncPriority) (operations : Option (List SyncOperation)) :
    ((set_sync_priority st users priority operations).rules.filter
        (fun r => same_users r.users users))
      = [⟨users, priority, operations.getD default_operations⟩] ∧
    ((set_sync_priority st users priority operations).rules.filter
        (fun r => !(same_users r.users users)))
      = ((load_sync_priority st).getD ⟨[]⟩).rules.filter
          (fun r => !(same_users r.users users)) ∧
    ∀ (p₁ : SyncPriority) (o₁ : Option (List SyncOperation)),
      ((set_sync_priority (.valid (set_sync_priority st users p₁ o₁))
          users priority operations).rules.filter
        (fun r => same_users r.users users))
      = [⟨users, priority, operations.getD default_operations⟩] := by
  have key : ∀ (st' : SidecarState),
      ((set_sync_priority st' users priority operations).rules.filter
        (fun r => same_users r.users users))
      = [⟨users, priority, operations.getD default_operations⟩] := by
    intro st'
    simp only [set_sync_priority, List.filter_append]
    rw [filter_of_filter_not]
    simp [List.filter_cons, same_users_self]
  refine ⟨key st, ?_, fun p₁ o₁ => key _⟩
  simp only [set_sync_priority, List.filter_append]
  rw [filter_not_of_filter_not]
  simp [List.filter_cons, same_users_self]

/-! ## `remove_sync_priority` (`api.py` lines 90-141) -/

/-- The `new_rules` loop of `remove_sync_priority` (api.py lines 119-130):
for each rule keep only the users outside the removed set, appending a
replacement rule exactly when some user remains. -/
def remove_users_rules (us : List String) : List SyncPriorityRule → List SyncPriorityRule
  | [] => []
  | r :: rest =>
      if (r.users.filter (fun u => decide (u ∉ us))).isEmpty then
        remove_users_rules us rest
      else
        { users := r.users.filter (fun u => decide (u ∉ us)), priority := r.priority,
          operations := r.operations } :: remove_users_rules us rest

/-- `remove_sync_priority` from `api.py`, acting on the sidecar state.
`users = none` is Python's `users=None`: the whole sidecar file is removed.
Otherwise the given identifiers are filtered out of every rule; rules left
with no users are dropped, and if no rules remain the file is deleted.  When
`load_sync_priority` yields nothing (absent or unparsable file) the function
returns early, leaving the state untouched (api.py lines 114-116). -/
def remove_sync_priority (st : SidecarState) (users : Option (List String)) :
    SidecarState :=
  match users with
  | none => SidecarState.absent
  | some us =>
      match load_sync_priority st with
      | none => st
      | some config =>
          let new_rules := remove_users_rules us config.rules
          if new_rules.isEmpty then SidecarState.absent
          else SidecarState.valid ⟨new_rules⟩

/-- The rule transformation as the claim words it: remove the given
identifiers from every rule, keep a rule (priority and operations unchanged)
exactly when its remaining users are non-empty. -/
def remove_users_spec (rules : List SyncPriorityRule) (us : List String) :
    List SyncPriorityRule :=
  (rules.map (fun r => { r with users := r.users.filter (fun u => decide (u ∉ us)) })).filter
    (fun r => !r.users.isEmpty)

theorem remove_rules_eq_spec (us : List String) (rules : List SyncPriorityRule) :
    remove_users_rules us rules = remove_users_spec rules us := by
  induction rules with
  | nil => rfl
  | cons r rest ih =>
      simp only [remove_users_rules, remove_users_spec, List.map_cons, List.filter_cons]
      split
      · next h => simp_all [remove_users_spec]
      · next h => simp_all [remove_users_spec]

/-- C5: `remove_sync_priority` with an explicit user list removes those
identifiers from every rule of a parsable config: a rule whose remaining
users are non-empty is kept with exactly the remaining users (priority and
operations unchanged), a rule emptied of users is dropped, and when no rules
remain the sidecar file is deleted; with `users=None` the entire sidecar is
deleted whatever its state. -/
theorem remove_sync_priority_spec :
    (∀ (config : SyncPriorityConfig) (us : List String),
        remove_sync_priority (.valid config) (some us) =
          (if remove_users_spec config.rules us = [] then SidecarState.absent
           else SidecarState.valid ⟨remove_users_spec config.rules us⟩)) ∧
    (∀ st : SidecarState, remove_sync_priority st none = SidecarState.absent) := by
  refine ⟨fun config us => ?_, fun st => rfl⟩
  simp only [remove_sync_priority, load_sync_priority,
    remove_rules_eq_spec us config.rules, List.isEmpty_iff]

/-! ## Dispatcher peer resolution (`watcher.py` lines 94-135) -/

/-- The `instant_users` accumulation loop of `_handle_sync_event`
(watcher.py lines 106-110): concatenate, in stored order, the users of every
rule whose priority is instant and whose operations contain the event's
operation. -/
def instant_users (config : SyncPriorityConfig) (operation : SyncOperation) :
    List String :=
  config.rules.foldr
    (fun r acc =>
      if r.priority = SyncPriority.instant ∧ operation ∈ r.operations then
        r.users ++ acc
      else acc) []

/-- The peer-resolution core of `_handle_sync_event` (watcher.py lines
94-131): absent config means no deliveries; otherwise collect the instant
users, exit early when none, deduplicate into a set, discard the wildcard
`*` unexpanded (watcher.py lines 116-120), and attempt one delivery to every
remaining user other than the local client.  The result is the set of peers
to which `send_instant_sync` is attempted. -/
def handle_sync_event (st : SidecarState) (operation : SyncOperation)
    (client_email : String) : Finset String :=
  match load_sync_priority st with
  | none => ∅
  | some config =>
      let iu := instant_users config operation
      if iu.isEmpty then ∅
      else ((iu.toFinset).erase "*").filter (fun u => u ≠ client_email)

/-- The peer set as the spec's Rule Matcher words it: the union of the user
identifiers of every rule whose priority is instant and whose operation set
contains the operation. -/
def resolve_spec (config : SyncPriorityConfig) (operation : SyncOperation) :
    Finset String :=
  config.rules.foldr
    (fun r acc =>
      if r.priority = SyncPriority.instant ∧ operation ∈ r.operations then
        r.users.toFinset ∪ acc
      else acc) ∅

theorem instant_users_toFinset (config : SyncPriorityConfig)
    (operation : SyncOperation) :
    (instant_users config operation).toFinset = resolve_spec config operation := by
  show ((config.rules).foldr _ []).toFinset = (config.rules).foldr _ ∅
  induction config.rules with
  | nil => rfl
  | cons r rest ih =>
      by_cases h : r.priority = SyncPriority.instant ∧ operation ∈ r.operations <;>
        simp [instant_users, resolve_spec, List.foldr_cons, h, List.toFinset_append, ih]

/-- C1: for a classified event, the dispatcher attempts delivery exactly to
the union of the user identifiers of the instant rules covering the event's
operation, with the wildcard `*` removed unexpanded and the local client
excluded; an absent (or unparsable) sidecar config, or an empty computed
set, yields no delivery attempt (the empty target set). -/
theorem handle_sync_event_targets (st : SidecarState) (operation : SyncOperation)
    (client_email : String) :
    handle_sync_event st operation client_email =
      match load_sync_priority st with
      | none => ∅
      | some config =>
          ((resolve_spec config operation).erase "*").erase client_email := by
  cases st with
  | absent => rfl
  | corrupt => rfl
  | valid config =>
      simp only [handle_sync_event, load_sync_priority]
      by_cases h : (instant_users config operation).isEmpty
      · have h0 : instant_users config operation = [] := List.isEmpty_iff.mp h
        have h2 : resolve_spec config operation = ∅ := by
          rw [← instant_users_toFinset, h0]; rfl
        simp [h, h2]
      · rw [if_neg h, ← instant_users_toFinset]
        exact Finset.filter_ne' _ _

/-! ## Sidecar serialization round-trip (`api.py` lines 158-186)

`save_sync_priority` serializes the config with `model_dump(mode='json')`
(enums become their string values) before the YAML write; `load_sync_priority`
re-validates the parsed YAML through the pydantic constructor
`SyncPriorityConfig(**data)`.  YAML itself is an external collaborator and is
assumed to reproduce the dumped document; the embedding covers the dump /
re-validate pair. -/

/-- String value of a `SyncPriority`, as in `model_dump(mode='json')`. -/
def dump_priority : SyncPriority → String
  | .instant => "instant"
  | .normal => "normal"

/-- Pydantic validation of a priority string (`SyncPriority(value)`). -/
def parse_priority : String → Option SyncPriority
  | "instant" => some SyncPriority.instant
  | "normal" => some SyncPriority.normal
  | _ => none

/-- String value of a `SyncOperation`, as in `model_dump(mode='json')`. -/
def dump_operation : SyncOperation → String
  | .create => "create"
  | .update => "update"
  | .delete => "delete"
  | .move => "move"

/-- Pydantic validation of an operation string (`SyncOperation(value)`). -/
def parse_operation : String → Option SyncOperation
  | "create" => some SyncOperation.create
  | "update" => some SyncOperation.update
  | "delete" => some SyncOperation.delete
  | "move" => some SyncOperation.move
  | _ => none

/-- Element-wise validation of a dumped operation list. -/
def parse_operations : List String → Option (List SyncOperation)
  | [] => some []
  | s :: rest =>
      match parse_operation s, parse_operations rest with
      | some o, some os => some (o :: os)
      | _, _ => none

/-- A rule as it appears in the dumped YAML document. -/
structure DumpedRule where
  users : List String
  priority : String
  operations : List String
deriving DecidableEq, Repr

/-- `model_dump(mode='json')` of one rule. -/
def dump_rule (r : SyncPriorityRule) : DumpedRule :=
  ⟨r.users, dump_priority r.priority, r.operations.map dump_operation⟩

/-- `model_dump(mode='json')` of a config's rule list (`save_sync_priority`,
api.py line 183). -/
def dump_config (c : SyncPriorityConfig) : List DumpedRule :=
  c.rules.map dump_rule

/-- Pydantic re-validation of one dumped rule: `users` must be non-empty
(`min_length=1`), and priority and every operation must be legal enum
values. -/
def parse_rule (d : DumpedRule) : Option SyncPriorityRule :=
  if d.users.isEmpty then none
  else
    match parse_priority d.priority, parse_operations d.operations with
    | some p, some ops => some ⟨d.users, p, ops⟩
    | _, _ => none

/-- Element-wise re-validation of the dumped rule list. -/
def parse_rules : List DumpedRule → Option (List SyncPriorityRule)
  | [] => some []
  | d :: rest =>
      match parse_rule d, parse_rules rest with
      | some r, some rs => some (r :: rs)
      | _, _ => none

/-- `SyncPriorityConfig(**data)` in `load_sync_priority` (api.py line 169). -/
def parse_config (doc : List DumpedRule) : Option SyncPriorityConfig :=
  (parse_rules doc).map (fun rs => ⟨rs⟩)

theorem parse_dump_priority (p : SyncPriority) :
    parse_priority (dump_priority p) = some p := by
  cases p <;> rfl

theorem parse_dump_operation (o : SyncOperation) :
    parse_operation (dump_operation o) = some o := by
  cases o <;> rfl

theorem parse_dump_operations (ops : List SyncOperation) :
    parse_operations (ops.map dump_operation) = some ops := by
  induction ops with
  | nil => rfl
  | cons o rest ih =>
      simp [parse_operations, parse_dump_operation, ih]

theorem parse_dump_rule (r : SyncPriorityRule) (h : r.users ≠ []) :
    parse_rule (dump_rule r) = some r := by
  have hne : (dump_rule r).users.isEmpty = false := by
    show r.users.isEmpty = false
    cases hu : r.users with
    | nil => exact absurd hu h
    | cons a l => rfl
  simp [parse_rule, hne, dump_rule, parse_dump_priority, parse_dump_operations, h]

theorem parse_dump_rules (rules : List SyncPriorityRule)
    (h : ∀ r ∈ rules, r.users ≠ []) :
    parse_rules (rules.map dump_rule) = some rules := by
  induction rules with
  | nil => rfl
  | cons r rest ih =>
      have hr : r.users ≠ [] := h r (by simp)
      have hrest := ih (fun r' hr' => h r' (List.mem_cons_of_mem _ hr'))
      simp [parse_rules, parse_dump_rule r hr, hrest]

/-- C6: round-trip — dumping a config (whose rules all satisfy the pydantic
`min_length=1` invariant on users) and re-validating the dumped document
reproduces the same rule list: same users, same priority, same operations,
in the same order. -/
theorem save_load_round_trip (c : SyncPriorityConfig)
    (h : ∀ r ∈ c.rules, r.users ≠ []) :
    parse_config (dump_config c) = some c := by
  unfold parse_config dump_config
  rw [parse_dump_rules c.rules h]
  rfl

/-- Witness for C6 at a concrete configuration. -/
theorem save_load_round_trip_witness :
    parse_config (dump_config ⟨[⟨["alice@example.com", "bob@example.com"],
        SyncPriority.instant, [SyncOperation.create, SyncOperation.update]⟩]⟩)
      = some ⟨[⟨["alice@example.com", "bob@example.com"],
        SyncPriority.instant, [SyncOperation.create, SyncOperation.update]⟩]⟩ :=
  save_load_round_trip _ (by decide)

/-! ## Change detector (`watcher.py` lines 17-92)

File bytes are `List Nat`; the digest function (`hashlib.sha256(...)
.hexdigest()` in the source) is an explicit parameter `hash`, and the
outcome of `open(file_path, 'rb').read()` is passed in as an `Option`
(`none` models the read raising, e.g. the file vanishing mid-read). -/

/-- The per-handler checksum cache `self.file_checksums : Dict[str, str]`. -/
abbrev ChecksumCache := List (String × String)

/-- A raw watchdog filesystem event (src path and directory flag). -/
structure FSEvent where
  src_path : String
  is_directory : Bool

/-- Split a character list at `/` separators (the component structure
`pathlib` assigns to a POSIX path string). -/
def split_on_slash : List Char → List (List Char)
  | [] => [[]]
  | c :: rest =>
      if c = '/' then [] :: split_on_slash rest
      else
        match split_on_slash rest with
        | [] => [[c]]
        | h :: t => (c :: h) :: t

/-- Whether `l` ends with `suffix` (`str.endswith`). -/
def list_ends_with (l suffix : List Char) : Bool :=
  decide (l.reverse.take suffix.length = suffix.reverse)

/-- Whether `l` starts with `p` (`str.startswith`). -/
def list_starts_with (l p : List Char) : Bool :=
  decide (l.take p.length = p)

/-- `Path(file_path).name`: the last path component. -/
def path_name (file_path : String) : List Char :=
  (split_on_slash file_path.toList).getLastD []

/-- `Path(file_path).suffix` (CPython pathlib): the part of the final
component from its last dot, unless that dot is the first or last
character. -/
def path_suffix (name : List Char) : List Char :=
  match name.reverse.findIdx? (fun c => c = '.') with
  | none => []
  | some j =>
      let i := name.length - 1 - j
      if 0 < i ∧ i < name.length - 1 then name.drop i else []

/-- `SyncPriorityHandler._should_ignore` (watcher.py lines 59-75). -/
def should_ignore (file_path : String) : Bool :=
  let name := path_name file_path
  if list_ends_with name ".syncpriority.yaml".toList then true
  else if list_starts_with name ".".toList then true
  else if [".tmp".toList, ".swp".toList, ".lock".toList].contains (path_suffix name) then true
  else false

/-- `SyncPriorityHandler._content_changed` (watcher.py lines 77-92): a read
failure is treated as changed (cache untouched); otherwise the new digest is
compared with the cached one, the cache is updated on a difference, and the
event is reported unchanged only when the digests agree. -/
def content_changed (hash : List Nat → String) (cache : ChecksumCache)
    (file_path : String) (read : Option (List Nat)) : Bool × ChecksumCache :=
  match read with
  | none => (true, cache)
  | some content =>
      let new_checksum := hash content
      let old_checksum := cache.lookup file_path
      if old_checksum ≠ some new_checksum then
        (true, (file_path, new_checksum) :: cache)
      else (false, cache)

/-- `SyncPriorityHandler.on_modified` (watcher.py lines 32-39): directory
events and ignored paths are dropped; otherwise the update event propagates
(to `_handle_sync_event`) exactly when `_content_changed` reports a change.
The boolean is whether an update event is propagated. -/
def on_modified (hash : List Nat → String) (cache : ChecksumCache)
    (event : FSEvent) (read : Option (List Nat)) : Bool × ChecksumCache :=
  if event.is_directory || should_ignore event.src_path then (false, cache)
  else content_changed hash cache event.src_path read

theorem content_changed_caches (hash : List Nat → String) (cache : ChecksumCache)
    (p : String) (content : List Nat) :
    (content_changed hash cache p (some content)).2.lookup p = some (hash content) := by
  simp only [content_changed]
  by_cases h : cache.lookup p ≠ some (hash content)
  · simp [h, List.lookup]
  · simpa [h] using not_not.mp h

theorem content_changed_dedup (hash : List Nat → String) (cache : ChecksumCache)
    (p : String) (c₁ c₂ : List Nat) (hdig : hash c₁ = hash c₂) :
    (content_changed hash (content_changed hash cache p (some c₁)).2 p (some c₂)).1
      = false := by
  have h1 := content_changed_caches hash cache p c₁
  generalize (content_changed hash cache p (some c₁)).2 = s₁ at h1
  show (content_changed hash s₁ p (some c₂)).1 = false
  simp only [content_changed]
  rw [h1, hdig]
  simp

/-- C7: the change detector suppresses digest-unchanged duplicates of
modified events — after a first modified notification for a path, a second
consecutive one whose content digest equals the first propagates nothing —
and a failure to read the file is conservatively treated as changed, so that
event is propagated (for a non-directory, non-ignored path) rather than
silently dropped. -/
theorem on_modified_dedup (hash : List Nat → String) (cache : ChecksumCache)
    (event : FSEvent) (c₁ c₂ : List Nat) (hdig : hash c₁ = hash c₂) :
    (on_modified hash (on_modified hash cache event (some c₁)).2 event (some c₂)).1
      = false ∧
    (event.is_directory = false → should_ignore event.src_path = false →
      (on_modified hash cache event none).1 = true) := by
  constructor
  · by_cases hig : (event.is_directory || should_ignore event.src_path) = true
    · simp [on_modified, hig]
    · have e1 : on_modified hash cache event (some c₁)
          = content_changed hash cache event.src_path (some c₁) := by
        simp [on_modified, hig]
      have e2 : ∀ s : ChecksumCache, on_modified hash s event (some c₂)
          = content_changed hash s event.src_path (some c₂) := fun s => by
        simp [on_modified, hig]
      rw [e1, e2]
      exact content_changed_dedup hash cache event.src_path c₁ c₂ hdig
  · intro hd hs
    simp [on_modified, hd, hs, content_changed]

/-- Witness for C7 at a concrete path, cache and digest function. -/
theorem on_modified_dedup_witness :
    (on_modified (fun _ => "d") ((on_modified (fun _ => "d") [] ⟨"data/notes.txt", false⟩ (some [1])).2)
        ⟨"data/notes.txt", false⟩ (some [2])).1 = false ∧
    (on_modified (fun _ => "d") [] ⟨"data/notes.txt", false⟩ none).1 = true := by
  have h := on_modified_dedup (fun _ => "d") [] ⟨"data/notes.txt", false⟩ [1] [2] rfl
  exact ⟨h.1, h.2 rfl (by decide)⟩

/-! ## Sync receiver (`server.py`, `client.py`)

The datasite tree is a finite map from component paths (`List String`,
mirroring `pathlib` components) to nodes.  Python exceptions raised by the
filesystem primitives inside the per-operation handlers are injected through
`FsFaults` flags; the external permission backend (`syft_core.permissions
.check_permission`, imported inside `validate_sync_permissions`) is a
`PermBackend` whose `Except.error` result stands for any exception raised
during permission evaluation, an import failure included. -/

/-- A node of the datasite tree. -/
inductive FNode where
  | file (content : List Nat)
  | dir
deriving DecidableEq, Repr

/-- The datasite tree: an association list from component paths to nodes
(`List.lookup` finds the most recent binding). -/
abbrev DatasiteTree := List (List String × FNode)

/-- Path lookup (`Path.exists` / `is_file` / `is_dir` all read this). -/
def tree_lookup (fs : DatasiteTree) (p : List String) : Option FNode :=
  fs.lookup p

/-- `Path.exists()`. -/
def exists_path (fs : DatasiteTree) (p : List String) : Bool :=
  (tree_lookup fs p).isSome

/-- Write (or overwrite) a node at a path. -/
def tree_set (fs : DatasiteTree) (p : List String) (n : FNode) : DatasiteTree :=
  (p, n) :: fs.filter (fun e => decide (e.1 ≠ p))

/-- `Path.unlink()`: remove the entry at exactly `p`. -/
def remove_exact (fs : DatasiteTree) (p : List String) : DatasiteTree :=
  fs.filter (fun e => decide (e.1 ≠ p))

/-- `shutil.rmtree(p)`: remove `p` and every path below it. -/
def remove_tree (fs : DatasiteTree) (p : List String) : DatasiteTree :=
  fs.filter (fun e => decide (e.1.take p.length ≠ p))

/-- `shutil.move(old, new)`: re-root every entry at or below `old` to `new`. -/
def move_path (old new : List String) (fs : DatasiteTree) : DatasiteTree :=
  fs.map (fun e =>
    if e.1.take old.length = old then (new ++ e.1.drop old.length, e.2) else e)

/-- The proper, non-empty component prefixes of `p.parent` — the directories
that `target_path.parent.mkdir(parents=True, exist_ok=True)` ensures. -/
def parent_prefixes (p : List String) : List (List String) :=
  (List.range p.dropLast.length).map (fun i => p.dropLast.take (i + 1))

/-- Create each directory of a list that is not already present. -/
def add_dirs (ds : List (List String)) (fs : DatasiteTree) : DatasiteTree :=
  match ds with
  | [] => fs
  | d :: rest => add_dirs rest (if exists_path fs d then fs else (d, FNode.dir) :: fs)

/-- `target_path.parent.mkdir(parents=True, exist_ok=True)`. -/
def mkdir_parents (p : List String) (fs : DatasiteTree) : DatasiteTree :=
  add_dirs (parent_prefixes p) fs

/-- Exception-injection flags for the filesystem primitives used by the
per-operation handlers (each `true` flag makes the corresponding Python
call raise). -/
structure FsFaults where
  mkdir_fault : Bool := false
  write_fault : Bool := false
  touch_fault : Bool := false
  unlink_fault : Bool := false
  rmtree_fault : Bool := false
  move_fault : Bool := false
deriving DecidableEq, Repr

/-- `SyncRequest` from `models.py` (timestamp and checksum omitted: the
receiver never reads them). `target_path` and `old_path` are relative
component paths. -/
structure SyncRequest where
  sender : String
  target_path : List String
  operation : SyncOperation
  content : Option (List Nat) := none
  old_path : Option (List String) := none
deriving DecidableEq, Repr

/-- `SyncResponse` from `models.py` (timestamp omitted). -/
structure SyncResponse where
  success : Bool
  message : String
  error_code : Option String := none
deriving DecidableEq, Repr

/-- The external permission collaborator consulted by
`validate_sync_permissions`. -/
structure PermBackend where
  check_permission : String → List String → String → Except String Bool

/-- The `permission_map` of `validate_sync_permissions` (client.py lines
144-151): create/update need `write`, delete/move need `admin`. -/
def permission_for : SyncOperation → String
  | .create => "write"
  | .update => "write"
  | .delete => "admin"
  | .move => "admin"

/-- `validate_sync_permissions` from `client.py` (lines 117-161): query the
backend on the resolved absolute path; any exception raised during the
evaluation (backend unavailable or unimportable included) is caught and
turned into `False` — deny by default. -/
def validate_sync_permissions (b : PermBackend) (sender : String)
    (target_path : List String) (operation : SyncOperation)
    (base_path : List String) : Bool :=
  match b.check_permission sender (base_path ++ target_path) (permission_for operation) with
  | .ok allowed => allowed
  | .error _ => false

/-- `PrioritySyncServer._handle_create` (server.py lines 119-151): ensure the
parent directory chain, refuse to overwrite an existing target with
FILE_EXISTS, write the content (or touch an empty file), and convert any
exception raised inside the handler into CREATE_ERROR. -/
def handle_create (o : FsFaults) (content : Option (List Nat))
    (target_path : List String) (fs : DatasiteTree) : SyncResponse × DatasiteTree :=
  if o.mkdir_fault then
    (⟨false, "Create failed", some "CREATE_ERROR"⟩, fs)
  else
    let fs₁ := mkdir_parents target_path fs
    if exists_path fs₁ target_path then
      (⟨false, "File already exists", some "FILE_EXISTS"⟩, fs₁)
    else
      match content with
      | some bs =>
          if o.write_fault then (⟨false, "Create failed", some "CREATE_ERROR"⟩, fs₁)
          else (⟨true, "Created", none⟩, tree_set fs₁ target_path (FNode.file bs))
      | none =>
          if o.touch_fault then (⟨false, "Create failed", some "CREATE_ERROR"⟩, fs₁)
          else (⟨true, "Created", none⟩, tree_set fs₁ target_path (FNode.file []))

/-- `PrioritySyncServer._handle_update` (server.py lines 153-179): the target
must already exist (FILE_NOT_FOUND otherwise); content, when present, is
overwritten; handler exceptions become UPDATE_ERROR. -/
def handle_update (o : FsFaults) (content : Option (List Nat))
    (target_path : List String) (fs : DatasiteTree) : SyncResponse × DatasiteTree :=
  if !exists_path fs target_path then
    (⟨false, "File not found", some "FILE_NOT_FOUND"⟩, fs)
  else
    match content with
    | some bs =>
        if o.write_fault then (⟨false, "Update failed", some "UPDATE_ERROR"⟩, fs)
        else (⟨true, "Updated", none⟩, tree_set fs target_path (FNode.file bs))
    | none => (⟨true, "Updated", none⟩, fs)

/-- `PrioritySyncServer._handle_delete` (server.py lines 181-205): an absent
target succeeds trivially; a file is unlinked, a directory recursively
removed; handler exceptions become DELETE_ERROR. -/
def handle_delete (o : FsFaults) (target_path : List String)
    (fs : DatasiteTree) : SyncResponse × DatasiteTree :=
  match tree_lookup fs target_path with
  | none => (⟨true, "File already deleted", none⟩, fs)
  | some (FNode.file _) =>
      if o.unlink_fault then (⟨false, "Delete failed", some "DELETE_ERROR"⟩, fs)
      else (⟨true, "Deleted", none⟩, remove_exact fs target_path)
  | some FNode.dir =>
      if o.rmtree_fault then (⟨false, "Delete failed", some "DELETE_ERROR"⟩, fs)
      else (⟨true, "Deleted", none⟩, remove_tree fs target_path)

/-- `PrioritySyncServer._handle_move` (server.py lines 207-242): requires an
old path (MISSING_OLD_PATH), an existing source (SOURCE_NOT_FOUND), ensures
the target's parent chain, then renames; handler exceptions become
MOVE_ERROR. -/
def handle_move (o : FsFaults) (old_path : Option (List String))
    (target_path : List String) (fs : DatasiteTree) : SyncResponse × DatasiteTree :=
  match old_path with
  | none => (⟨false, "Old path required for move operation", some "MISSING_OLD_PATH"⟩, fs)
  | some src =>
      if !exists_path fs src then
        (⟨false, "Source file not found", some "SOURCE_NOT_FOUND"⟩, fs)
      else if o.mkdir_fault then
        (⟨false, "Move failed", some "MOVE_ERROR"⟩, fs)
      else
        let fs₁ := mkdir_parents target_path fs
        if o.move_fault then (⟨false, "Move failed", some "MOVE_ERROR"⟩, fs₁)
        else (⟨true, "Moved", none⟩, move_path src target_path fs₁)

/-- The body of the outer `try` in `handle_sync_request` (server.py lines
79-111).  Nothing left inside it can raise: `validate_sync_permissions`
absorbs its own exceptions, and each per-operation handler converts its own;
the `Except` layer records the outer `try` structurally. -/
def handle_sync_request_body (b : PermBackend) (o : FsFaults)
    (req : SyncRequest) (base_path : List String) (fs : DatasiteTree) :
    Except String (SyncResponse × DatasiteTree) :=
  if !validate_sync_permissions b req.sender req.target_path req.operation base_path then
    Except.ok (⟨false, "Permission denied", some "PERMISSION_DENIED"⟩, fs)
  else
    let target_path := base_path ++ req.target_path
    match req.operation with
    | .create => Except.ok (handle_create o req.content target_path fs)
    | .update => Except.ok (handle_update o req.content target_path fs)
    | .delete => Except.ok (handle_delete o target_path fs)
    | .move =>
        Except.ok (handle_move o (req.old_path.map (fun p => base_path ++ p)) target_path fs)

/-- `PrioritySyncServer.handle_sync_request` (server.py lines 68-117): the
outer `except` converts anything the body raises into SYNC_ERROR. -/
def handle_sync_request (b : PermBackend) (o : FsFaults) (req : SyncRequest)
    (base_path : List String) (fs : DatasiteTree) : SyncResponse × DatasiteTree :=
  match handle_sync_request_body b o req base_path fs with
  | Except.ok r => r
  | Except.error _ => (⟨false, "Sync failed", some "SYNC_ERROR"⟩, fs)

/-! ### Tree lemmas -/

theorem lookup_filter_none (fs : DatasiteTree) (pred : List String × FNode → Bool)
    (q : List String) (h : ∀ e : List String × FNode, e.1 = q → pred e = false) :
    List.lookup q (fs.filter pred) = none := by
  induction fs with
  | nil => rfl
  | cons e rest ih =>
      obtain ⟨k, v⟩ := e
      by_cases hq : k = q
      · have hp := h (k, v) hq
        simp [List.filter_cons, hp, ih]
      · cases hp : pred (k, v) with
        | true =>
            have hbeq : (q == k) = false := beq_eq_false_iff_ne.mpr (fun x => hq x.symm)
            simp [List.filter_cons, hp, List.lookup, hbeq, ih]
        | false => simp [List.filter_cons, hp, ih]

theorem lookup_filter_key_ne (fs : DatasiteTree) (p q : List String) (h : q ≠ p) :
    List.lookup q (fs.filter (fun e => decide (e.1 ≠ p))) = List.lookup q fs := by
  induction fs with
  | nil => rfl
  | cons e rest ih =>
      obtain ⟨k, v⟩ := e
      by_cases hk : k = p
      · have hbeq : (q == p) = false := beq_eq_false_iff_ne.mpr h
        simpa [List.filter_cons, hk, List.lookup, hbeq] using ih
      · cases hqk : q == k with
        | true => simp [List.filter_cons, hk, List.lookup, hqk]
        | false => simpa [List.filter_cons, hk, List.lookup, hqk] using ih

theorem tree_lookup_set (fs : DatasiteTree) (p : List String) (n : FNode)
    (q : List String) :
    tree_lookup (tree_set fs p n) q = if q = p then some n else tree_lookup fs q := by
  by_cases h : q = p
  · subst h
    simp [tree_set, tree_lookup, List.lookup]
  · have hbeq : (q == p) = false := beq_eq_false_iff_ne.mpr h
    simp only [tree_set, tree_lookup, List.lookup, hbeq, if_neg h]
    exact lookup_filter_key_ne fs p q h

theorem tree_lookup_remove_exact (fs : DatasiteTree) (p : List String) :
    tree_lookup (remove_exact fs p) p = none := by
  apply lookup_filter_none
  intro e he
  simp [he]

theorem tree_lookup_remove_tree (fs : DatasiteTree) (p q : List String)
    (h : q.take p.length = p) :
    tree_lookup (remove_tree fs p) q = none := by
  apply lookup_filter_none
  intro e he
  simp [he, h]

theorem tree_lookup_add_dirs (ds : List (List String)) (fs : DatasiteTree)
    (q : List String) (h : ∀ d ∈ ds, d ≠ q) :
    tree_lookup (add_dirs ds fs) q = tree_lookup fs q := by
  induction ds generalizing fs with
  | nil => rfl
  | cons d rest ih =>
      have hd : d ≠ q := h d (by simp)
      have hrest : ∀ d' ∈ rest, d' ≠ q := fun d' hm => h d' (List.mem_cons_of_mem _ hm)
      simp only [add_dirs]
      rw [ih _ hrest]
      by_cases he : exists_path fs d = true
      · simp [he]
      · have hbeq : (q == d) = false := beq_eq_false_iff_ne.mpr (fun x => hd x.symm)
        simp [he, tree_lookup, List.lookup, hbeq]

theorem parent_prefixes_ne (p : List String) : ∀ d ∈ parent_prefixes p, d ≠ p := by
  intro d hd
  simp only [parent_prefixes, List.mem_map, List.mem_range] at hd
  obtain ⟨i, hi, rfl⟩ := hd
  intro he
  have hlen := congrArg List.length he
  rw [List.length_take, List.length_dropLast] at hlen
  have h1 : min (i + 1) (p.length - 1) ≤ p.length - 1 := min_le_right _ _
  rw [hlen] at h1
  rw [List.length_dropLast] at hi
  omega

theorem tree_lookup_mkdir_parents (p : List String) (fs : DatasiteTree) :
    tree_lookup (mkdir_parents p fs) p = tree_lookup fs p :=
  tree_lookup_add_dirs _ fs p (parent_prefixes_ne p)

theorem exists_path_mkdir_parents (p : List String) (fs : DatasiteTree) :
    exists_path (mkdir_parents p fs) p = exists_path fs p := by
  simp [exists_path, tree_lookup_mkdir_parents]

theorem exists_path_add_dirs_mono (ds : List (List String)) (fs : DatasiteTree)
    (q : List String) (h : exists_path fs q = true) :
    exists_path (add_dirs ds fs) q = true := by
  induction ds generalizing fs with
  | nil => exact h
  | cons d rest ih =>
      simp only [add_dirs]
      apply ih
      by_cases he : exists_path fs d = true
      · rw [if_pos he]
        exact h
      · rw [if_neg he]
        simp only [exists_path, tree_lookup, List.lookup] at h ⊢
        cases hqd : q == d <;> simp [hqd, h]

theorem exists_path_add_dirs_mem (ds : List (List String)) (fs : DatasiteTree)
    (d : List String) (h : d ∈ ds) :
    exists_path (add_dirs ds fs) d = true := by
  induction ds generalizing fs with
  | nil => cases h
  | cons d' rest ih =>
      simp only [add_dirs]
      rcases List.mem_cons.mp h with rfl | hm
      · apply exists_path_add_dirs_mono
        by_cases he : exists_path fs d = true
        · rw [if_pos he]
          exact he
        · rw [if_neg he]
          simp [exists_path, tree_lookup, List.lookup]
      · exact ih _ hm

/-! ### Receiver theorems -/

theorem handle_create_success_state (content : Option (List Nat))
    (tp : List String) (fs : DatasiteTree) (hex : exists_path fs tp = false) :
    handle_create {} content tp fs =
      (⟨true, "Created", none⟩,
       tree_set (mkdir_parents tp fs) tp (FNode.file (content.getD []))) := by
  have hex1 : exists_path (mkdir_parents tp fs) tp = false := by
    rw [exists_path_mkdir_parents]
    exact hex
  cases content <;> simp [handle_create, hex1]

/-- C8: create is strictly new-file.  With no injected fault, a create
against an existing target returns FILE_EXISTS with the target's node
untouched; against a missing target it creates the parent directory chain,
writes the request content (an empty file when content is absent) and
succeeds — and an immediate second create for the same target then fails
with FILE_EXISTS. -/
theorem handle_create_strict :
    (∀ (content : Option (List Nat)) (tp : List String) (fs : DatasiteTree),
        exists_path fs tp = true →
          (handle_create {} content tp fs).1.success = false ∧
          (handle_create {} content tp fs).1.error_code = some "FILE_EXISTS" ∧
          tree_lookup (handle_create {} content tp fs).2 tp = tree_lookup fs tp) ∧
    (∀ (content : Option (List Nat)) (tp : List String) (fs : DatasiteTree),
        exists_path fs tp = false →
          (handle_create {} content tp fs).1.success = true ∧
          (handle_create {} content tp fs).1.error_code = none ∧
          tree_lookup (handle_create {} content tp fs).2 tp
            = some (FNode.file (content.getD [])) ∧
          (∀ d ∈ parent_prefixes tp,
            exists_path (handle_create {} content tp fs).2 d = true) ∧
          (∀ content₂ : Option (List Nat),
            (handle_create {} content₂ tp (handle_create {} content tp fs).2).1
              = ⟨false, "File already exists", some "FILE_EXISTS"⟩)) := by
  constructor
  · intro content tp fs hex
    have hex1 : exists_path (mkdir_parents tp fs) tp = true := by
      rw [exists_path_mkdir_parents]
      exact hex
    refine ⟨?_, ?_, ?_⟩ <;> simp [handle_create, hex1, tree_lookup_mkdir_parents]
  · intro content tp fs hex
    rw [handle_create_success_state content tp fs hex]
    refine ⟨rfl, rfl, ?_, ?_, ?_⟩
    · rw [tree_lookup_set]
      simp
    · intro d hd
      by_cases hdt : d = tp
      · subst hdt
        simp [exists_path, tree_lookup_set]
      · show (tree_lookup (tree_set (mkdir_parents tp fs) tp _) d).isSome = true
        rw [tree_lookup_set, if_neg hdt]
        exact exists_path_add_dirs_mem (parent_prefixes tp) fs d hd
    · intro content₂
      have hx : exists_path
          (tree_set (mkdir_parents tp fs) tp (FNode.file (content.getD []))) tp = true := by
        simp [exists_path, tree_lookup_set]
      have hx1 : exists_path (mkdir_parents tp
          (tree_set (mkdir_parents tp fs) tp (FNode.file (content.getD [])))) tp = true := by
        rw [exists_path_mkdir_parents]
        exact hx
      cases content₂ <;> simp [handle_create, hx1]

/-- Witness for C8 at a concrete target and tree. -/
theorem handle_create_strict_witness :
    ((handle_create {} (some [7]) ["docs", "a.txt"]
        [(["docs", "a.txt"], FNode.file [1])]).1.error_code = some "FILE_EXISTS") ∧
    ((handle_create {} (some [7]) ["docs", "a.txt"] []).1.success = true) := by
  have h1 := handle_create_strict.1 (some [7]) ["docs", "a.txt"]
    [(["docs", "a.txt"], FNode.file [1])] (by decide)
  have h2 := handle_create_strict.2 (some [7]) ["docs", "a.txt"] [] (by decide)
  exact ⟨h1.2.1, h2.1⟩

theorem handle_delete_absent (tp : List String) (fs : DatasiteTree)
    (h : tree_lookup fs tp = none) :
    handle_delete {} tp fs = (⟨true, "File already deleted", none⟩, fs) := by
  simp [handle_delete, h]

/-- C9: delete is idempotent.  With no injected fault, deleting an absent
target succeeds and leaves the tree unchanged; deleting an existing target
succeeds and leaves the target absent (a directory's whole subtree is
removed); and the same delete envelope applied twice against a target absent
both times succeeds both times, the target staying absent. -/
theorem handle_delete_idempotent :
    (∀ (tp : List String) (fs : DatasiteTree), tree_lookup fs tp = none →
        handle_delete {} tp fs = (⟨true, "File already deleted", none⟩, fs)) ∧
    (∀ (tp : List String) (fs : DatasiteTree), exists_path fs tp = true →
        (handle_delete {} tp fs).1.success = true ∧
        tree_lookup (handle_delete {} tp fs).2 tp = none) ∧
    (∀ (tp : List String) (fs : DatasiteTree) (q : List String),
        tree_lookup fs tp = some FNode.dir → q.take tp.length = tp →
        tree_lookup (handle_delete {} tp fs).2 q = none) ∧
    (∀ (tp : List String) (fs : DatasiteTree), tree_lookup fs tp = none →
        (handle_delete {} tp fs).1.success = true ∧
        (handle_delete {} tp (handle_delete {} tp fs).2).1.success = true ∧
        tree_lookup (handle_delete {} tp (handle_delete {} tp fs).2).2 tp = none) := by
  refine ⟨handle_delete_absent, ?_, ?_, ?_⟩
  · intro tp fs h
    obtain ⟨n, hl⟩ := Option.isSome_iff_exists.mp
      (show (tree_lookup fs tp).isSome = true from h)
    cases n with
    | file bs =>
        refine ⟨by simp [handle_delete, hl], ?_⟩
        simpa [handle_delete, hl] using tree_lookup_remove_exact fs tp
    | dir =>
        refine ⟨by simp [handle_delete, hl], ?_⟩
        have := tree_lookup_remove_tree fs tp tp (by simp)
        simpa [handle_delete, hl] using this
  · intro tp fs q hl hq
    have := tree_lookup_remove_tree fs tp q hq
    simpa [handle_delete, hl] using this
  · intro tp fs h
    rw [handle_delete_absent tp fs h]
    rw [handle_delete_absent tp fs h]
    exact ⟨rfl, rfl, h⟩

/-- Witness for C9 at a concrete target and tree. -/
theorem handle_delete_idempotent_witness :
    (handle_delete {} ["docs", "a.txt"] []
        = (⟨true, "File already deleted", none⟩, [])) ∧
    ((handle_delete {} ["docs"]
        [(["docs"], FNode.dir), (["docs", "a.txt"], FNode.file [1])]).1.success = true) := by
  have h1 := handle_delete_idempotent.1 ["docs", "a.txt"] [] rfl
  have h2 := handle_delete_idempotent.2.1 ["docs"]
    [(["docs"], FNode.dir), (["docs", "a.txt"], FNode.file [1])] (by decide)
  exact ⟨h1, h2.1⟩

/-! ### Permission fail-closed and structured responses -/

/-- A permission backend whose evaluation raises on every query (e.g. the
`syft_core.permissions` import failing or the backend being unavailable). -/
def err_backend : PermBackend :=
  ⟨fun _ _ _ => Except.error "permission backend unavailable"⟩

/-- A permission backend that allows every query. -/
def allow_backend : PermBackend :=
  ⟨fun _ _ _ => Except.ok true⟩

/-- A sample create request. -/
def req_create : SyncRequest :=
  { sender := "alice@example.com", target_path := ["docs", "a.txt"],
    operation := SyncOperation.create, content := some [1, 2], old_path := none }

/-- C10: permission checking is fail-closed.  Whenever the permission
evaluation raises (for any reason, backend unavailability or import failure
included), `validate_sync_permissions` returns `False` rather than
propagating the fault, and `handle_sync_request` then answers
success = false with error code PERMISSION_DENIED, leaving the datasite
tree untouched. -/
theorem validate_sync_permissions_fail_closed (b : PermBackend) (o : FsFaults)
    (req : SyncRequest) (base_path : List String) (fs : DatasiteTree) (msg : String)
    (h : b.check_permission req.sender (base_path ++ req.target_path)
          (permission_for req.operation) = Except.error msg) :
    validate_sync_permissions b req.sender req.target_path req.operation base_path
        = false ∧
    handle_sync_request b o req base_path fs
        = (⟨false, "Permission denied", some "PERMISSION_DENIED"⟩, fs) := by
  have hv : validate_sync_permissions b req.sender req.target_path req.operation
      base_path = false := by
    simp [validate_sync_permissions, h]
  exact ⟨hv, by simp [handle_sync_request, handle_sync_request_body, hv]⟩

/-- Witness for C10: a raising backend, a concrete update request and a
one-file tree. -/
theorem validate_sync_permissions_fail_closed_witness :
    validate_sync_permissions err_backend "mallory@example.com" ["docs", "a.txt"]
        SyncOperation.update ["base"] = false ∧
    handle_sync_request err_backend {}
        { sender := "mallory@example.com", target_path := ["docs", "a.txt"],
          operation := SyncOperation.update, content := some [3], old_path := none }
        ["base"] [(["base", "docs", "a.txt"], FNode.file [9])]
      = (⟨false, "Permission denied", some "PERMISSION_DENIED"⟩,
         [(["base", "docs", "a.txt"], FNode.file [9])]) := by
  have h := validate_sync_permissions_fail_closed err_backend {}
    { sender := "mallory@example.com", target_path := ["docs", "a.txt"],
      operation := SyncOperation.update, content := some [3], old_path := none }
    ["base"] [(["base", "docs", "a.txt"], FNode.file [9])]
    "permission backend unavailable" rfl
  exact h

/-- C2 counterexample: at a concrete request whose permission evaluation
raises, `handle_sync_request` answers PERMISSION_DENIED — not SYNC_ERROR
(nor the per-operation CREATE_ERROR), contrary to the claim's assertion that
a failure raised during permission checking is converted to SYNC_ERROR.  The
exception is absorbed inside `validate_sync_permissions` before the outer
`except` of `handle_sync_request` can see it. -/
theorem handle_sync_request_perm_fault_code :
    (handle_sync_request err_backend {} req_create ["base"] []).1.error_code
      = some "PERMISSION_DENIED" ∧
    (handle_sync_request err_backend {} req_create ["base"] []).1.error_code
      ≠ some "SYNC_ERROR" ∧
    (handle_sync_request err_backend {} req_create ["base"] []).1.error_code
      ≠ some "CREATE_ERROR" ∧
    err_backend.check_permission req_create.sender (["base"] ++ req_create.target_path)
      (permission_for req_create.operation)
      = Except.error "permission backend unavailable" := by
  refine ⟨rfl, by decide, by decide, rfl⟩

/-- The closed set of error codes a `SyncResponse` may carry. -/
def structured_codes : List (Option String) :=
  [some "PERMISSION_DENIED", some "FILE_EXISTS", some "FILE_NOT_FOUND",
   some "MISSING_OLD_PATH", some "SOURCE_NOT_FOUND", some "CREATE_ERROR",
   some "UPDATE_ERROR", some "DELETE_ERROR", some "MOVE_ERROR", some "SYNC_ERROR"]

/-- A response is structured when it either reports success with no error
code or carries one of the specific error codes. -/
def structured (r : SyncResponse) : Prop :=
  (r.success = true ∧ r.error_code = none) ∨ r.error_code ∈ structured_codes

theorem structured_handle_create (o : FsFaults) (c : Option (List Nat))
    (tp : List String) (fs : DatasiteTree) :
    structured (handle_create o c tp fs).1 := by
  cases hmk : o.mkdir_fault <;> cases hex : exists_path (mkdir_parents tp fs) tp <;>
    cases c <;> cases hw : o.write_fault <;> cases ht : o.touch_fault <;>
    simp [handle_create, hmk, hex, hw, ht, structured, structured_codes]

theorem structured_handle_update (o : FsFaults) (c : Option (List Nat))
    (tp : List String) (fs : DatasiteTree) :
    structured (handle_update o c tp fs).1 := by
  cases hex : exists_path fs tp <;> cases c <;> cases hw : o.write_fault <;>
    simp [handle_update, hex, hw, structured, structured_codes]

theorem structured_handle_delete (o : FsFaults) (tp : List String)
    (fs : DatasiteTree) :
    structured (handle_delete o tp fs).1 := by
  cases hl : tree_lookup fs tp with
  | none => simp [handle_delete, hl, structured, structured_codes]
  | some n =>
      cases n <;> cases hu : o.unlink_fault <;> cases hr : o.rmtree_fault <;>
        simp [handle_delete, hl, hu, hr, structured, structured_codes]

theorem structured_handle_move (o : FsFaults) (old_path : Option (List String))
    (tp : List String) (fs : DatasiteTree) :
    structured (handle_move o old_path tp fs).1 := by
  cases old_path with
  | none => simp [handle_move, structured, structured_codes]
  | some src =>
      cases hex : exists_path fs src <;> cases hm : o.mkdir_fault <;>
        cases hv : o.move_fault <;>
        simp [handle_move, hex, hm, hv, structured, structured_codes]

/-- C2 (amended): `handle_sync_request` always returns a structured
`SyncResponse` — success with no error code, or one of the specific error
codes — and never propagates an exception.  A failure raised during
permission checking is absorbed inside `validate_sync_permissions` and
yields PERMISSION_DENIED (not SYNC_ERROR); a failure raised inside a
per-operation handler yields that operation's specific code — an injected
fault at each handler's raising primitives yields CREATE_ERROR (mkdir),
UPDATE_ERROR (the write, the only raising step of `_handle_update`),
DELETE_ERROR (unlink for a file target, rmtree for a directory target) and
MOVE_ERROR (the target-parent mkdir or the move itself). -/
theorem handle_sync_request_structured :
    (∀ (b : PermBackend) (o : FsFaults) (req : SyncRequest)
        (base_path : List String) (fs : DatasiteTree),
        structured (handle_sync_request b o req base_path fs).1) ∧
    (∀ (b : PermBackend) (o : FsFaults) (req : SyncRequest)
        (base_path : List String) (fs : DatasiteTree) (msg : String),
        b.check_permission req.sender (base_path ++ req.target_path)
            (permission_for req.operation) = Except.error msg →
        (handle_sync_request b o req base_path fs).1
          = ⟨false, "Permission denied", some "PERMISSION_DENIED"⟩) ∧
    (∀ (b : PermBackend) (o : FsFaults) (req : SyncRequest)
        (base_path : List String) (fs : DatasiteTree),
        validate_sync_permissions b req.sender req.target_path req.operation
            base_path = true →
        req.operation = SyncOperation.create → o.mkdir_fault = true →
        (handle_sync_request b o req base_path fs).1.error_code
          = some "CREATE_ERROR") ∧
    (∀ (b : PermBackend) (o : FsFaults) (req : SyncRequest)
        (base_path : List String) (fs : DatasiteTree) (bs : List Nat),
        validate_sync_permissions b req.sender req.target_path req.operation
            base_path = true →
        req.operation = SyncOperation.update → o.write_fault = true →
        req.content = some bs →
        exists_path fs (base_path ++ req.target_path) = true →
        (handle_sync_request b o req base_path fs).1.error_code
          = some "UPDATE_ERROR") ∧
    (∀ (b : PermBackend) (o : FsFaults) (req : SyncRequest)
        (base_path : List String) (fs : DatasiteTree) (n : FNode),
        validate_sync_permissions b req.sender req.target_path req.operation
            base_path = true →
        req.operation = SyncOperation.delete →
        o.unlink_fault = true → o.rmtree_fault = true →
        tree_lookup fs (base_path ++ req.target_path) = some n →
        (handle_sync_request b o req base_path fs).1.error_code
          = some "DELETE_ERROR") ∧
    (∀ (b : PermBackend) (o : FsFaults) (req : SyncRequest)
        (base_path : List String) (fs : DatasiteTree) (src : List String),
        validate_sync_permissions b req.sender req.target_path req.operation
            base_path = true →
        req.operation = SyncOperation.move → req.old_path = some src →
        exists_path fs (base_path ++ src) = true →
        (o.mkdir_fault = true ∨ o.move_fault = true) →
        (handle_sync_request b o req base_path fs).1.error_code
          = some "MOVE_ERROR") := by
  refine ⟨?_, ?_, ?_, ?_, ?_, ?_⟩
  · intro b o req base_path fs
    simp only [handle_sync_request, handle_sync_request_body]
    cases hv : validate_sync_permissions b req.sender req.target_path
        req.operation base_path with
    | false => simp [structured, structured_codes]
    | true =>
        cases hop : req.operation with
        | create =>
            simpa using structured_handle_create o req.content
              (base_path ++ req.target_path) fs
        | update =>
            simpa using structured_handle_update o req.content
              (base_path ++ req.target_path) fs
        | delete =>
            simpa using structured_handle_delete o
              (base_path ++ req.target_path) fs
        | move =>
            simpa using structured_handle_move o
              (req.old_path.map (fun p => base_path ++ p))
              (base_path ++ req.target_path) fs
  · intro b o req base_path fs msg h
    have hv : validate_sync_permissions b req.sender req.target_path req.operation
        base_path = false := by
      simp [validate_sync_permissions, h]
    simp [handle_sync_request, handle_sync_request_body, hv]
  · intro b o req base_path fs hv hop hmk
    rw [hop] at hv
    simp [handle_sync_request, handle_sync_request_body, hv, hop,
      handle_create, hmk]
  · intro b o req base_path fs bs hv hop hw hc hex
    rw [hop] at hv
    simp [handle_sync_request, handle_sync_request_body, hv, hop,
      handle_update, hex, hc, hw]
  · intro b o req base_path fs n hv hop hu hr hl
    rw [hop] at hv
    cases n <;>
      simp [handle_sync_request, handle_sync_request_body, hv, hop,
        handle_delete, hl, hu, hr]
  · intro b o req base_path fs src hv hop hold hex hfault
    rw [hop] at hv
    rcases hfault with hm | hmv
    · simp [handle_sync_request, handle_sync_request_body, hv, hop,
        handle_move, hold, hex, hm]
    · cases hmk : o.mkdir_fault <;>
        simp [handle_sync_request, handle_sync_request_body, hv, hop,
          handle_move, hold, hex, hmk, hmv]

/-- A sample update request. -/
def req_update : SyncRequest :=
  { sender := "alice@example.com", target_path := ["docs", "a.txt"],
    operation := SyncOperation.update, content := some [5], old_path := none }

/-- A sample delete request. -/
def req_delete : SyncRequest :=
  { sender := "alice@example.com", target_path := ["docs", "a.txt"],
    operation := SyncOperation.delete, content := none, old_path := none }

/-- A sample move request. -/
def req_move : SyncRequest :=
  { sender := "alice@example.com", target_path := ["docs", "b.txt"],
    operation := SyncOperation.move, content := none,
    old_path := some ["docs", "old.txt"] }

/-- Witness for the amended C2 at concrete requests, one per conjunct with a
hypothesis: a raising backend yields PERMISSION_DENIED, and an injected
fault inside each per-operation handler yields that operation's code. -/
theorem handle_sync_request_structured_witness :
    ((handle_sync_request err_backend {} req_create ["base"] []).1
        = ⟨false, "Permission denied", some "PERMISSION_DENIED"⟩) ∧
    ((handle_sync_request allow_backend
        { mkdir_fault := true } req_create ["base"] []).1.error_code
        = some "CREATE_ERROR") ∧
    ((handle_sync_request allow_backend
        { write_fault := true } req_update ["base"]
        [(["base", "docs", "a.txt"], FNode.file [1])]).1.error_code
        = some "UPDATE_ERROR") ∧
    ((handle_sync_request allow_backend
        { unlink_fault := true, rmtree_fault := true } req_delete ["base"]
        [(["base", "docs", "a.txt"], FNode.file [1])]).1.error_code
        = some "DELETE_ERROR") ∧
    ((handle_sync_request allow_backend
        { mkdir_fault := true } req_move ["base"]
        [(["base", "docs", "old.txt"], FNode.file [1])]).1.error_code
        = some "MOVE_ERROR") := by
  refine ⟨?_, ?_, ?_, ?_, ?_⟩
  · exact handle_sync_request_structured.2.1 err_backend {} req_create ["base"] []
      "permission backend unavailable" rfl
  · exact handle_sync_request_structured.2.2.1 allow_backend { mkdir_fault := true }
      req_create ["base"] [] rfl rfl rfl
  · exact handle_sync_request_structured.2.2.2.1 allow_backend
      { write_fault := true } req_update ["base"]
      [(["base", "docs", "a.txt"], FNode.file [1])] [5] rfl rfl rfl rfl (by decide)
  · exact handle_sync_request_structured.2.2.2.2.1 allow_backend
      { unlink_fault := true, rmtree_fault := true } req_delete ["base"]
      [(["base", "docs", "a.txt"], FNode.file [1])] (FNode.file [1])
      rfl rfl rfl rfl (by decide)
  · exact handle_sync_request_structured.2.2.2.2.2 allow_backend
      { mkdir_fault := true } req_move ["base"]
      [(["base", "docs", "old.txt"], FNode.file [1])] ["docs", "old.txt"]
      rfl rfl rfl (by decide) (Or.inl rfl)
